import Mathlib

/-!
Shallow embedding of the admpub/cr browser-automation wrapper.

The repository has two revisions of the same package:
  * cr.go (current): one-shot FindElement, per-call timeout context in GetNodes,
    float64 coordinates in GetTopLeft, must-variants that terminate on error.
  * the legacy revision (src/unnamed/part_000): FindElement with the 8-attempt
    exponential-backoff polling loop described in the spec.

Go `error` values are modelled by the inductive GoError; the underlying
chromedp driver is modelled as an oracle (a function argument giving the
outcome of each driver call), since its behaviour is external to this
repository.  Durations are Int nanoseconds, as Go's time.Duration is an
int64 nanosecond count.
-/

/-- Error values observed in the package: the sentinel ErrNotFound
(`errors.New("element not found")`), errors passed through from the
chromedp driver, and strconv.ParseFloat errors (carrying the offending
substring, as *strconv.NumError does). -/
inductive GoError where
  | notFound : GoError
  | driver : String → GoError
  | parse : String → GoError
  deriving DecidableEq, Repr

/-- The pair returned by GetNodes: a slice of nodes (modelled by ids) and an
error, exactly the Go multiple-return `([]*extras.Node, error)`. -/
structure GetNodesResult where
  nodes : List Nat
  err : Option GoError
  deriving DecidableEq, Repr

/-- FindElement from cr.go lines 204-213: one GetNodes call; a driver error is
returned unchanged; a non-empty node list yields nil; otherwise ErrNotFound. -/
def FindElement (r : GetNodesResult) : Option GoError :=
  match r.err with
  | some e => some e
  | none => if r.nodes.length > 0 then none else some GoError.notFound

/-- A Go context, reduced to the two observables the claims need: whether it
has been cancelled (directly or through an ancestor) and its deadline. -/
structure Ctx where
  cancelled : Bool
  deadline : Option Int
  deriving DecidableEq, Repr

/-- The Browser handle of cr.go: b.ctx is the chromedp task context derived
from the root context created in New (whose cancel function is stored in
b.cancelCtx), plus the configurable timeout.  rootCancelled records whether
b.cancelCtx has been invoked; rootDeadline is the root context's deadline. -/
structure Browser where
  rootCancelled : Bool
  rootDeadline : Option Int
  timeout : Int
  deriving DecidableEq, Repr

/-- minTimeout = time.Second, in nanoseconds. -/
def minTimeout : Int := 1000000000

/-- The context b.ctx seen by every operation: derived from the root context,
so it is cancelled exactly when the root has been cancelled (Go context
cancellation propagates to derived contexts) and inherits its deadline. -/
def ctxOf (b : Browser) : Ctx :=
  ⟨b.rootCancelled, b.rootDeadline⟩

/-- context.WithTimeout(parent, d) at absolute time `now`: the child context
keeps the parent's cancellation and its deadline is now+d, capped by the
parent's earlier deadline if any. -/
def withTimeout (parent : Ctx) (now d : Int) : Ctx :=
  ⟨parent.cancelled,
    some (match parent.deadline with
      | none => now + d
      | some pd => min pd (now + d))⟩

/-- SetTimeout from cr.go lines 65-70: clamp the duration to minTimeout from
below, then store it. -/
def SetTimeout (b : Browser) (d : Int) : Browser :=
  { b with timeout := if d < minTimeout then minTimeout else d }

/-- Close from cr.go lines 74-77: invoke b.cancelCtx() and return nil. -/
def Close (b : Browser) : Browser × Option GoError :=
  ({ b with rootCancelled := true }, none)

/-- RunAction: cdp.Run(b.ctx, action).  The driver oracle receives the
context the code passes to it and produces the call's error. -/
def RunAction (b : Browser) (driver : Ctx → Option GoError) : Option GoError :=
  driver (ctxOf b)

/-- Navigate: one cdp.Run of a task list on b.ctx; the error comes straight
back from the driver. -/
def Navigate (b : Browser) (driver : Ctx → Option GoError) : Option GoError :=
  driver (ctxOf b)

/-- SendKeys: cdp.Run(b.ctx, cdp.SendKeys(xpath, value)). -/
def SendKeys (b : Browser) (driver : Ctx → Option GoError) : Option GoError :=
  driver (ctxOf b)

/-- Click: cdp.Run(b.ctx, cdp.Click(xpath)). -/
def Click (b : Browser) (driver : Ctx → Option GoError) : Option GoError :=
  driver (ctxOf b)

/-- GetAttributes error flow: one cdp.Run(b.ctx, cdp.Attributes(...)); the
attribute map payload plays no role in any claim and is omitted. -/
def GetAttributes (b : Browser) (driver : Ctx → Option GoError) : Option GoError :=
  driver (ctxOf b)

/-- GetSource error flow: one cdp.Run(b.ctx, cdp.OuterHTML(...)). -/
def GetSource (b : Browser) (driver : Ctx → Option GoError) : Option GoError :=
  driver (ctxOf b)

/-- Outcome of a must-variant: either a normal return or log.Fatalf, which
terminates the process with the wrapped error. -/
inductive MustOutcome where
  | ok : MustOutcome
  | fatal : GoError → MustOutcome
  deriving DecidableEq, Repr

/-- MustNavigate from cr.go lines 101-105: call Navigate; on error, log.Fatalf
ends execution; otherwise return. -/
def MustNavigate (b : Browser) (driver : Ctx → Option GoError) : MustOutcome :=
  match Navigate b driver with
  | some e => MustOutcome.fatal e
  | none => MustOutcome.ok

/-- MustSendKeys from cr.go lines 120-124. -/
def MustSendKeys (b : Browser) (driver : Ctx → Option GoError) : MustOutcome :=
  match SendKeys b driver with
  | some e => MustOutcome.fatal e
  | none => MustOutcome.ok

/-- MustClick from cr.go lines 132-136. -/
def MustClick (b : Browser) (driver : Ctx → Option GoError) : MustOutcome :=
  match Click b driver with
  | some e => MustOutcome.fatal e
  | none => MustOutcome.ok

/-- The outcome of the cdp.Evaluate run inside GetTopLeft: the string the
injected JavaScript produced (Go zero value "" if the run failed) and the
run's error. -/
structure EvalResult where
  result : String
  err : Option GoError
  deriving DecidableEq, Repr

/-- Splitting a character list at every occurrence of sep: the recursion that
underlies strings.Split for a one-character separator.  The result is always
non-empty; on the empty input it is a single empty field. -/
def splitChar (sep : Char) : List Char → List (List Char)
  | [] => [[]]
  | c :: cs =>
    let rest := splitChar sep cs
    if c = sep then [] :: rest
    else (c :: rest.headD []) :: rest.tail

/-- strings.Split(s, sep) for the one-character separator ":" used in
GetTopLeft: the substrings of s between occurrences of sep; [""] when s is
empty, [s] when sep does not occur. -/
def goSplit (sep : Char) (s : String) : List String :=
  (splitChar sep s.data).map String.mk

/-- GetTopLeft from cr.go lines 162-181.  The numeric type Q abstracts Go's
float64; pf is the strconv.ParseFloat oracle (none = parse failure).
strings.Split(result, ":") is goSplit.  When the split does not have exactly
two fields the parse block is skipped, top and left keep their zero values,
and the function returns (top+1, left+1, err) with err still the Evaluate
error. -/
def GetTopLeft {Q : Type} [Zero Q] [One Q] [Add Q]
    (pf : String → Option Q) (ev : EvalResult) : (Q × Q) × Option GoError :=
  match goSplit ':' ev.result with
  | [p0, p1] =>
    match pf p0 with
    | none => ((0, 0), some (GoError.parse p0))
    | some top =>
      match pf p1 with
      | none => ((0, 0), some (GoError.parse p1))
      | some left => ((top + 1, left + 1), none)
  | _ => ((0 + 1, 0 + 1), ev.err)

/-- ClickByXY from cr.go lines 153-159: call GetTopLeft; on error return it at
once; otherwise run cdp.MouseClickXY, whose outcome the click oracle gives. -/
def ClickByXY {Q : Type} [Zero Q] [One Q] [Add Q] (pf : String → Option Q)
    (ev : EvalResult) (click : Option GoError) : Option GoError :=
  match (GetTopLeft pf ev).2 with
  | some e => some e
  | none => click

/-- GetNodes from cr.go lines 216-222: derive a child context from b.ctx with
b.timeout via context.WithTimeout and run cdp.Nodes under it; the driver
oracle maps the context it is handed to the call's outcome. -/
def GetNodes (b : Browser) (driver : Ctx → GetNodesResult) (now : Int) :
    GetNodesResult :=
  driver (withTimeout (ctxOf b) now b.timeout)

namespace Legacy

/-- What one run of the legacy FindElement loop (part_000 lines 181-201) did:
the returned error (none = found), how many GetNodes calls were made, and the
list of time.Sleep durations in ms, in order (one sleep precedes every
GetNodes call). -/
structure LoopOutcome where
  result : Option GoError
  attempts : Nat
  waits : List Nat
  deriving DecidableEq, Repr

/-- The loop of the legacy FindElement, from iteration `i` with current wait
`wait` (ms) and `r` iterations left.  Each iteration sleeps, calls GetNodes
(the lookup oracle, indexed by iteration), skips to the next iteration on
error (leaving wait unchanged), returns nil on a non-empty node list, and
otherwise doubles wait; after the last iteration it returns ErrNotFound. -/
def findElementFrom (lookup : Nat → GetNodesResult) :
    Nat → Nat → Nat → LoopOutcome
  | _, _, 0 => ⟨some GoError.notFound, 0, []⟩
  | i, wait, Nat.succ r =>
    match (lookup i).err with
    | some _ =>
      let rest := findElementFrom lookup (i + 1) wait r
      ⟨rest.result, rest.attempts + 1, wait :: rest.waits⟩
    | none =>
      if (lookup i).nodes.length > 0 then ⟨none, 1, [wait]⟩
      else
        let rest := findElementFrom lookup (i + 1) (wait * 2) r
        ⟨rest.result, rest.attempts + 1, wait :: rest.waits⟩

/-- The legacy FindElement (part_000 lines 181-201): wait starts at
100 ms, 8 iterations. -/
def FindElement (lookup : Nat → GetNodesResult) : LoopOutcome :=
  findElementFrom lookup 0 100 8

/-- okCount lookup s j counts the iterations among s, s+1, ..., s+j-1 whose
GetNodes call returned a nil error; these are exactly the completed
iterations after which the legacy loop doubles the wait. -/
def okCount (lookup : Nat → GetNodesResult) : Nat → Nat → Nat
  | _, 0 => 0
  | s, Nat.succ j =>
    (if (lookup s).err = none then 1 else 0) + okCount lookup (s + 1) j

end Legacy

/-- A lookup oracle whose every call succeeds with zero nodes. -/
def emptyLookup : Nat → GetNodesResult := fun _ => ⟨[], none⟩

/-- A lookup oracle whose every call fails with a driver error. -/
def errLookup : Nat → GetNodesResult :=
  fun _ => ⟨[], some (GoError.driver "boom")⟩

/-- A lookup oracle that errors on iterations 0 and 1 and succeeds with one
node on iteration 2. -/
def findAtTwo : Nat → GetNodesResult :=
  fun i => if i = 2 then ⟨[7], none⟩ else ⟨[], some (GoError.driver "x")⟩

/-- A driver oracle that always fails. -/
def errDriver : Ctx → Option GoError := fun _ => some (GoError.driver "nav failed")

/-- A driver oracle that fails exactly on cancelled contexts, as the wrapped
chromedp driver does (a Run on a done context returns its error). -/
def cancelledDriver : Ctx → Option GoError :=
  fun c => if c.cancelled then some (GoError.driver "context canceled") else none

/-- A GetNodes oracle that fails exactly on cancelled contexts. -/
def cancelledGetNodes : Ctx → GetNodesResult :=
  fun c =>
    ⟨[], if c.cancelled then some (GoError.driver "context canceled") else none⟩

/-- A ParseFloat oracle that accepts nothing. -/
def rejectAll : String → Option Int := fun _ => none

/-- A ParseFloat oracle accepting exactly the strings "2" and "35". -/
def parseTwoThree : String → Option Int :=
  fun s => if s = "2" then some 2 else if s = "35" then some 35 else none

namespace Legacy

theorem attempts_le (lookup : Nat → GetNodesResult) :
    ∀ (r s w : Nat), (findElementFrom lookup s w r).attempts ≤ r := by
  intro r
  induction r with
  | zero => intro s w; simp [findElementFrom]
  | succ r ih =>
    intro s w
    simp only [findElementFrom]
    cases he : (lookup s).err with
    | some e =>
      have := ih (s + 1) w
      simpa using this
    | none =>
      by_cases hn : (lookup s).nodes.length > 0
      · simp [hn]
      · have := ih (s + 1) (w * 2)
        simp [hn]
        omega

theorem notFound_of_never (lookup : Nat → GetNodesResult)
    (h : ∀ i, (lookup i).err = none → (lookup i).nodes = []) :
    ∀ (r s w : Nat), (findElementFrom lookup s w r).result = some GoError.notFound ∧
      (findElementFrom lookup s w r).attempts = r := by
  intro r
  induction r with
  | zero => intro s w; exact ⟨rfl, rfl⟩
  | succ r ih =>
    intro s w
    simp only [findElementFrom]
    cases he : (lookup s).err with
    | some e =>
      have := ih (s + 1) w
      simp only
      exact ⟨this.1, by omega⟩
    | none =>
      have hn : (lookup s).nodes = [] := h s he
      have := ih (s + 1) (w * 2)
      simp [hn]
      exact ⟨this.1, by omega⟩

theorem found_at_first (lookup : Nat → GetNodesResult) :
    ∀ (r s w k : Nat), k < r →
      (lookup (s + k)).err = none → (lookup (s + k)).nodes ≠ [] →
      (∀ i, i < k → (lookup (s + i)).err = none → (lookup (s + i)).nodes = []) →
      (findElementFrom lookup s w r).result = none ∧
        (findElementFrom lookup s w r).attempts = k + 1 := by
  intro r
  induction r with
  | zero => intro s w k hk; omega
  | succ r ih =>
    intro s w k hk he hn hmin
    cases k with
    | zero =>
      rw [Nat.add_zero] at he hn
      have hlen : (lookup s).nodes.length > 0 := by
        cases hx : (lookup s).nodes with
        | nil => exact absurd hx hn
        | cons a l => simp [hx]
      simp [findElementFrom, he, hlen]
    | succ k =>
      have hshift : s + (k + 1) = (s + 1) + k := by omega
      rw [hshift] at he hn
      have hmin' : ∀ i, i < k → (lookup ((s + 1) + i)).err = none →
          (lookup ((s + 1) + i)).nodes = [] := by
        intro i hi
        have := hmin (i + 1) (by omega)
        rwa [show s + (i + 1) = (s + 1) + i by omega] at this
      have hrec := ih (s + 1) w k (by omega) he hn hmin'
      have hrec2 := ih (s + 1) (w * 2) k (by omega) he hn hmin'
      simp only [findElementFrom]
      cases he0 : (lookup s).err with
      | some e =>
        refine ⟨hrec.1, ?_⟩
        have h2 := hrec.2
        show (findElementFrom lookup (s + 1) w r).attempts + 1 = k + 1 + 1
        omega
      | none =>
        have hempty : (lookup s).nodes = [] := by
          have := hmin 0 (by omega)
          rw [Nat.add_zero] at this
          exact this he0
        have hlen : ¬ (lookup s).nodes.length > 0 := by simp [hempty]
        refine ⟨?_, ?_⟩
        · simp only [hlen, if_false]
          exact hrec2.1
        · simp only [hlen, if_false]
          have h2 := hrec2.2
          show (findElementFrom lookup (s + 1) (w * 2) r).attempts + 1 = k + 1 + 1
          omega

theorem waits_sum_le (lookup : Nat → GetNodesResult) :
    ∀ (r s w : Nat), (findElementFrom lookup s w r).waits.sum + w ≤ w * 2 ^ r := by
  intro r
  induction r with
  | zero => intro s w; simp [findElementFrom]
  | succ r ih =>
    intro s w
    have hw : w ≤ w * 2 ^ r := Nat.le_mul_of_pos_right w (Nat.pos_pow_of_pos r (by omega))
    have hp : w * 2 ^ (r + 1) = w * 2 ^ r + w * 2 ^ r := by ring
    simp only [findElementFrom]
    cases he : (lookup s).err with
    | some e =>
      have := ih (s + 1) w
      simp only [List.sum_cons]
      omega
    | none =>
      by_cases hn : (lookup s).nodes.length > 0
      · simp only [hn, if_true, List.sum_cons, List.sum_nil]
        omega
      · have := ih (s + 1) (w * 2)
        have hq : w * 2 * 2 ^ r = w * 2 ^ r + w * 2 ^ r := by ring
        simp only [hn, if_false, List.sum_cons]
        omega

theorem waits_get (lookup : Nat → GetNodesResult) :
    ∀ (r s w j : Nat), j < (findElementFrom lookup s w r).attempts →
      (findElementFrom lookup s w r).waits.get? j =
        some (w * 2 ^ okCount lookup s j) := by
  intro r
  induction r with
  | zero =>
    intro s w j hj
    simp [findElementFrom] at hj
  | succ r ih =>
    intro s w j hj
    simp only [findElementFrom] at hj ⊢
    cases he : (lookup s).err with
    | some e =>
      simp only [he] at hj ⊢
      cases j with
      | zero => simp [okCount]
      | succ j =>
        have hj' : j < (findElementFrom lookup (s + 1) w r).attempts := by
          simpa using hj
        have := ih (s + 1) w j hj'
        simp only [List.get?_cons_succ]
        rw [this]
        simp [okCount, he]
    | none =>
      by_cases hn : (lookup s).nodes.length > 0
      · simp only [he, hn, if_true] at hj ⊢
        cases j with
        | zero => simp [okCount]
        | succ j => simp at hj
      · simp only [he, hn, if_false] at hj ⊢
        cases j with
        | zero => simp [okCount]
        | succ j =>
          have hj' : j < (findElementFrom lookup (s + 1) (w * 2) r).attempts := by
            simpa using hj
          have := ih (s + 1) (w * 2) j hj'
          simp only [List.get?_cons_succ]
          rw [this]
          have : w * 2 * 2 ^ okCount lookup (s + 1) j =
              w * 2 ^ okCount lookup s (j + 1) := by
            simp [okCount, he, pow_succ]
            ring
          rw [this]

end Legacy

example : Legacy.FindElement emptyLookup =
    ⟨some GoError.notFound, 8, [100, 200, 400, 800, 1600, 3200, 6400, 12800]⟩ := by
  decide

example : Legacy.FindElement errLookup =
    ⟨some GoError.notFound, 8, [100, 100, 100, 100, 100, 100, 100, 100]⟩ := by
  decide

example : Legacy.FindElement findAtTwo = ⟨none, 3, [100, 100, 100]⟩ := by
  decide

/-- C1: when no GetNodes call ever succeeds with a non-empty node list (the
element never appears), the legacy FindElement polling loop performs all
8 lookup attempts and then returns the sentinel ErrNotFound. -/
theorem crC1_findElement_notFound_after_eight (lookup : Nat → GetNodesResult)
    (h : ∀ i, (lookup i).err = none → (lookup i).nodes = []) :
    (Legacy.FindElement lookup).result = some GoError.notFound ∧
      (Legacy.FindElement lookup).attempts = 8 :=
  Legacy.notFound_of_never lookup h 8 0 100

/-- C1 witness: a lookup that always succeeds with zero nodes exhausts all
8 attempts and ends in ErrNotFound. -/
theorem crC1_witness :
    (Legacy.FindElement emptyLookup).result = some GoError.notFound ∧
      (Legacy.FindElement emptyLookup).attempts = 8 :=
  crC1_findElement_notFound_after_eight emptyLookup (fun _ _ => rfl)

/-- C2 counterexample: when every GetNodes call errors, the wait stays at
100 ms for all 8 attempts, because the loop's continue on error skips the
doubling; the claim's doubling-on-every-attempt schedule would be
100, 200, ..., 12800. -/
theorem crC2_counterexample :
    (Legacy.FindElement errLookup).waits =
      [100, 100, 100, 100, 100, 100, 100, 100] ∧
      [100, 100, 100, 100, 100, 100, 100, 100] ≠
        ([100, 200, 400, 800, 1600, 3200, 6400, 12800] : List Nat) := by
  decide

/-- C2 (amended): the wait before attempt j is 100 ms doubled once for each
earlier attempt whose GetNodes call returned a nil error; attempts whose call
errored leave the wait unchanged.  At most 8 attempts are made and the total
sleep time is at most 25500 ms. -/
theorem crC2_backoff_amended (lookup : Nat → GetNodesResult) (j : Nat)
    (hj : j < (Legacy.FindElement lookup).attempts) :
    (Legacy.FindElement lookup).waits.get? j =
      some (100 * 2 ^ Legacy.okCount lookup 0 j) ∧
      (Legacy.FindElement lookup).attempts ≤ 8 ∧
      (Legacy.FindElement lookup).waits.sum ≤ 25500 := by
  refine ⟨Legacy.waits_get lookup 8 0 100 j hj,
    Legacy.attempts_le lookup 8 0 100, ?_⟩
  have h : (Legacy.FindElement lookup).waits.sum + 100 ≤ 100 * 2 ^ 8 :=
    Legacy.waits_sum_le lookup 8 0 100
  norm_num at h
  omega

/-- C2 witness: with a lookup that always returns zero nodes without error,
the wait before attempt 3 is recovered by the amended schedule. -/
theorem crC2_witness :
    (Legacy.FindElement emptyLookup).waits.get? 3 =
      some (100 * 2 ^ Legacy.okCount emptyLookup 0 3) ∧
      (Legacy.FindElement emptyLookup).attempts ≤ 8 ∧
      (Legacy.FindElement emptyLookup).waits.sum ≤ 25500 :=
  crC2_backoff_amended emptyLookup 3 (by decide)

/-- C3: if attempt k (0-based) is the first whose GetNodes call succeeds with
a non-empty node list, and k is within the 8-attempt budget, the legacy
FindElement returns nil at that very attempt, having performed exactly k+1
lookups and no more. -/
theorem crC3_findElement_first_success (lookup : Nat → GetNodesResult)
    (k : Nat) (hk : k < 8) (he : (lookup k).err = none)
    (hn : (lookup k).nodes ≠ [])
    (hmin : ∀ i, i < k → (lookup i).err = none → (lookup i).nodes = []) :
    (Legacy.FindElement lookup).result = none ∧
      (Legacy.FindElement lookup).attempts = k + 1 := by
  have h1 : (lookup (0 + k)).err = none := by rwa [Nat.zero_add]
  have h2 : (lookup (0 + k)).nodes ≠ [] := by rwa [Nat.zero_add]
  have h3 : ∀ i, i < k → (lookup (0 + i)).err = none →
      (lookup (0 + i)).nodes = [] := by
    intro i hi
    rw [Nat.zero_add]
    exact hmin i hi
  exact Legacy.found_at_first lookup 8 0 100 k hk h1 h2 h3

/-- C3 witness: a lookup that errors twice and finds a node on attempt 2
succeeds exactly at attempt 2, after 3 lookups. -/
theorem crC3_witness :
    (Legacy.FindElement findAtTwo).result = none ∧
      (Legacy.FindElement findAtTwo).attempts = 2 + 1 :=
  crC3_findElement_first_success findAtTwo 2 (by decide) (by decide)
    (by decide) (by decide)

/-- C4 counterexample: on the malformed JavaScript result "abc" (it does not
split into a top:left pair, and no parser accepts it) GetTopLeft returns
((1, 1), nil): no parse error is reported, contradicting the claim that every
malformed result string yields a parse error. -/
theorem crC4_counterexample :
    GetTopLeft rejectAll ⟨"abc", none⟩ = ((1, 1), none) ∧
      goSplit ':' "abc" = ["abc"] ∧ rejectAll "abc" = none := by
  decide

/-- C4 (amended): when the Evaluate result splits on ":" into exactly two
parts and both parse, GetTopLeft returns (top+1, left+1) with nil error; when
it splits into two parts and a part fails to parse, it returns (0, 0) and that
parse error; when it does not split into exactly two parts, the parse block is
skipped and it returns (1, 1) paired with the Evaluate call's own error (nil
when the evaluation succeeded, so such malformed strings yield no error). -/
theorem crC4_getTopLeft_amended {Q : Type} [Zero Q] [One Q] [Add Q]
    (pf : String → Option Q) (ev : EvalResult) :
    (∀ p0 p1 t l, goSplit ':' ev.result = [p0, p1] → pf p0 = some t →
      pf p1 = some l → GetTopLeft pf ev = ((t + 1, l + 1), none)) ∧
      (∀ p0 p1, goSplit ':' ev.result = [p0, p1] → pf p0 = none →
        GetTopLeft pf ev = ((0, 0), some (GoError.parse p0))) ∧
      (∀ p0 p1 t, goSplit ':' ev.result = [p0, p1] → pf p0 = some t →
        pf p1 = none → GetTopLeft pf ev = ((0, 0), some (GoError.parse p1))) ∧
      ((goSplit ':' ev.result).length ≠ 2 →
        GetTopLeft pf ev = ((0 + 1, 0 + 1), ev.err)) := by
  refine ⟨?_, ?_, ?_, ?_⟩
  · intro p0 p1 t l hs h0 h1
    simp [GetTopLeft, hs, h0, h1]
  · intro p0 p1 hs h0
    simp [GetTopLeft, hs, h0]
  · intro p0 p1 t hs h0 h1
    simp [GetTopLeft, hs, h0, h1]
  · intro hlen
    cases hs : goSplit ':' ev.result with
    | nil => simp [GetTopLeft, hs]
    | cons a l1 =>
      cases l1 with
      | nil => simp [GetTopLeft, hs]
      | cons b l2 =>
        cases l2 with
        | nil =>
          rw [hs] at hlen
          simp at hlen
        | cons c l3 => simp [GetTopLeft, hs]

/-- C4 witness: the result "2:35" with both parts parsing as 2 and 35 yields
((2+1, 35+1), nil). -/
theorem crC4_witness :
    GetTopLeft parseTwoThree ⟨"2:35", none⟩ = ((2 + 1, 35 + 1), none) :=
  (crC4_getTopLeft_amended parseTwoThree ⟨"2:35", none⟩).1 "2" "35" 2 35
    (by decide) (by decide) (by decide)

/-- C5: cr.go's FindElement produces exactly two error categories: it is nil
iff the lookup succeeded with a non-empty node list; a driver error is passed
through unchanged; a successful lookup with zero nodes yields the sentinel
ErrNotFound; and every returned error is one of those two. -/
theorem crC5_error_categories (r : GetNodesResult) :
    (FindElement r = none ↔ r.err = none ∧ r.nodes ≠ []) ∧
      (∀ e, r.err = some e → FindElement r = some e) ∧
      (r.err = none → r.nodes = [] → FindElement r = some GoError.notFound) ∧
      (∀ e, FindElement r = some e →
        r.err = some e ∨ (r.err = none ∧ r.nodes = [] ∧ e = GoError.notFound)) := by
  obtain ⟨nodes, err⟩ := r
  cases err with
  | some e => simp [FindElement]
  | none =>
    cases nodes with
    | nil => simp [FindElement]
    | cons a l => simp [FindElement]

/-- C5 witness: a driver error comes back unchanged from FindElement. -/
theorem crC5_witness :
    FindElement ⟨[], some (GoError.driver "boom")⟩ =
      some (GoError.driver "boom") :=
  (crC5_error_categories ⟨[], some (GoError.driver "boom")⟩).2.1
    (GoError.driver "boom") rfl

/-- C6: the non-polling operations never retry: Navigate, Click, SendKeys and
GetAttributes return the single driver call's error as is; ClickByXY
propagates a GetTopLeft failure without consulting the click outcome at all;
and each must-variant terminates the process exactly when its operation
errors and returns normally exactly when it succeeds. -/
theorem crC6_no_retry_must_variants {Q : Type} [Zero Q] [One Q] [Add Q]
    (b : Browser) (driver : Ctx → Option GoError)
    (pf : String → Option Q) (ev : EvalResult) :
    (∀ e, driver (ctxOf b) = some e →
      Navigate b driver = some e ∧ Click b driver = some e ∧
        SendKeys b driver = some e ∧ GetAttributes b driver = some e ∧
        MustNavigate b driver = MustOutcome.fatal e ∧
        MustClick b driver = MustOutcome.fatal e ∧
        MustSendKeys b driver = MustOutcome.fatal e) ∧
      (driver (ctxOf b) = none →
        MustNavigate b driver = MustOutcome.ok ∧
          MustClick b driver = MustOutcome.ok ∧
          MustSendKeys b driver = MustOutcome.ok) ∧
      (∀ e, (GetTopLeft pf ev).2 = some e →
        ∀ click, ClickByXY pf ev click = some e) := by
  refine ⟨?_, ?_, ?_⟩
  · intro e he
    simp [Navigate, Click, SendKeys, GetAttributes, MustNavigate, MustClick,
      MustSendKeys, he]
  · intro h0
    simp [Navigate, Click, SendKeys, MustNavigate, MustClick, MustSendKeys, h0]
  · intro e he click
    simp [ClickByXY, he]

/-- C6 witness: a failing driver makes MustNavigate terminate with that
error. -/
theorem crC6_witness :
    MustNavigate ⟨false, none, 5000000000⟩ errDriver =
      MustOutcome.fatal (GoError.driver "nav failed") :=
  ((crC6_no_retry_must_variants (Q := Int) ⟨false, none, 5000000000⟩ errDriver
    rejectAll ⟨"", none⟩).1 (GoError.driver "nav failed") rfl).2.2.2.2.1

/-- C7: every GetNodes call hands the driver a context derived from the
handle's context: it has the same cancellation state, and it always carries a
deadline that is at most now + b.timeout, so the call is bounded by the
per-handle timeout through context cancellation. -/
theorem crC7_getNodes_timeout_ctx (b : Browser) (now : Int) :
    ∃ c : Ctx,
      (∀ driver : Ctx → GetNodesResult, GetNodes b driver now = driver c) ∧
        c.cancelled = (ctxOf b).cancelled ∧
        ∃ dl, c.deadline = some dl ∧ dl ≤ now + b.timeout := by
  refine ⟨withTimeout (ctxOf b) now b.timeout, fun _ => rfl, rfl, ?_⟩
  cases hb : (ctxOf b).deadline with
  | none =>
    exact ⟨now + b.timeout, by simp [withTimeout, hb], le_refl _⟩
  | some pd =>
    exact ⟨min pd (now + b.timeout), by simp [withTimeout, hb],
      min_le_right _ _⟩

/-- C8: Close cancels the handle's context (the root context whose cancel
function was stored at construction, from which b.ctx is derived), and under
the wrapped driver's contract that a call on a cancelled context fails, every
subsequent operation on the closed handle returns an error rather than
succeeding. -/
theorem crC8_close_cancels (b : Browser)
    (driver : Ctx → Option GoError) (g : Ctx → GetNodesResult) (now : Int)
    (hdriver : ∀ c : Ctx, c.cancelled = true → driver c ≠ none)
    (hg : ∀ c : Ctx, c.cancelled = true → (g c).err ≠ none) :
    (ctxOf (Close b).1).cancelled = true ∧
      Navigate (Close b).1 driver ≠ none ∧
      Click (Close b).1 driver ≠ none ∧
      SendKeys (Close b).1 driver ≠ none ∧
      RunAction (Close b).1 driver ≠ none ∧
      GetSource (Close b).1 driver ≠ none ∧
      GetAttributes (Close b).1 driver ≠ none ∧
      (GetNodes (Close b).1 g now).err ≠ none ∧
      FindElement (GetNodes (Close b).1 g now) ≠ none := by
  refine ⟨rfl, hdriver _ rfl, hdriver _ rfl, hdriver _ rfl, hdriver _ rfl,
    hdriver _ rfl, hdriver _ rfl, hg _ rfl, ?_⟩
  have h2 := hg (withTimeout (ctxOf (Close b).1) now (Close b).1.timeout) rfl
  cases hre : (g (withTimeout (ctxOf (Close b).1) now (Close b).1.timeout)).err with
  | none => exact absurd hre h2
  | some e =>
    show FindElement
      (g (withTimeout (ctxOf (Close b).1) now (Close b).1.timeout)) ≠ none
    simp [FindElement, hre]

/-- C8 witness: on a closed handle, a driver honouring the cancelled-context
contract makes Navigate fail. -/
theorem crC8_witness :
    Navigate (Close ⟨false, none, 5000000000⟩).1 cancelledDriver ≠ none :=
  (crC8_close_cancels ⟨false, none, 5000000000⟩ cancelledDriver
    cancelledGetNodes 0
    (fun _ hc => by simp [cancelledDriver, hc])
    (fun _ hc => by simp [cancelledGetNodes, hc])).2.1

/-- C9: SetTimeout stores d itself when d is at least one second, stores
exactly one second when d is smaller, and thus never leaves the stored
timeout below one second. -/
theorem crC9_setTimeout_clamp (b : Browser) (d : Int) :
    (minTimeout ≤ d → (SetTimeout b d).timeout = d) ∧
      (d < minTimeout → (SetTimeout b d).timeout = minTimeout) ∧
      minTimeout ≤ (SetTimeout b d).timeout := by
  have ht : (SetTimeout b d).timeout =
      if d < minTimeout then minTimeout else d := rfl
  rw [ht]
  by_cases h : d < minTimeout
  · rw [if_pos h]
    exact ⟨fun hle => absurd h (by omega), fun _ => rfl, le_refl _⟩
  · rw [if_neg h]
    exact ⟨fun _ => rfl, fun hlt => absurd hlt h, by omega⟩

/-- C9 witness: 5 ns is below one second, so the timeout is clamped to
exactly minTimeout. -/
theorem crC9_witness :
    (SetTimeout ⟨false, none, 5000000000⟩ 5).timeout = minTimeout :=
  (crC9_setTimeout_clamp ⟨false, none, 5000000000⟩ 5).2.1 (by decide)

/-- C10: Close returns a nil error on every handle, whatever its state. -/
theorem crC10_close_returns_nil (b : Browser) : (Close b).2 = none := rfl
